import Mathlib

/-!
Verification of the trendrader topic subsystem:
shallow embedding of `trendradar/topic/storage.py`, `trendradar/topic/summarizer.py`,
`trendradar/topic/classifier.py` and the legacy `topic-layer/router.py`.

Python strings are modelled as `List Char`; the Python string operations used by the
code (`split`, `strip`, `replace`, the `in` operator, slicing) are reimplemented with
Python semantics.  File contents are values of type `Text`; writing a file is modelled
by returning the written content, and functions that may skip the write return
`Option Text`.
-/

set_option autoImplicit false
set_option maxRecDepth 100000

namespace TrendRadar

/-- Python strings, modelled as lists of characters. -/
abbrev Text := List Char

/-- Conversion from Lean string literals to the text model. -/
def txt (s : String) : Text := s.toList

/-- Index of the first occurrence of `pat` in `s` (Python `str.find` for found case). -/
def findSub (pat : Text) : Text → Option Nat
  | [] => if pat.isEmpty then some 0 else none
  | c :: cs =>
    if pat.isPrefixOf (c :: cs) then some 0
    else (findSub pat cs).map (· + 1)

/-- Python `pat in s` (substring containment). -/
def isSubstr (pat s : Text) : Bool := (findSub pat s).isSome

/-- Worker for `pySplit`, with explicit fuel so that the kernel can evaluate it;
`pySplit` always supplies enough fuel (each step removes at least one character). -/
def splitFuel (pat : Text) : Nat → Text → List Text
  | 0, s => [s]
  | fuel + 1, s =>
    match findSub pat s with
    | none => [s]
    | some i => s.take i :: splitFuel pat fuel (s.drop (i + pat.length))

/-- Python `s.split(pat)` for non-empty `pat` (the code never splits on an empty
separator, which raises in Python). -/
def pySplit (pat s : Text) : List Text :=
  if pat.isEmpty then [s] else splitFuel pat (s.length + 1) s

/-- Worker for `pyReplace`, with explicit fuel; `pyReplace` always supplies enough. -/
def replaceFuel (pat repl : Text) : Nat → Text → Text
  | 0, s => s
  | fuel + 1, s =>
    match findSub pat s with
    | none => s
    | some i => s.take i ++ repl ++ replaceFuel pat repl fuel (s.drop (i + pat.length))

/-- Python `s.replace(pat, repl)` for non-empty `pat`: replaces every non-overlapping
occurrence, scanning left to right. -/
def pyReplace (pat repl s : Text) : Text :=
  if pat.isEmpty then s else replaceFuel pat repl (s.length + 1) s

/-- The whitespace characters stripped by Python `str.strip()` (the repertoire
occurring in this code base; Python also strips other Unicode spaces). -/
def isPySpace (c : Char) : Bool :=
  c == ' ' || c == '\t' || c == '\n' || c == '\r' || c == '\x0b' || c == '\x0c'

/-- Python `s.strip()`. -/
def pyStrip (s : Text) : Text :=
  ((s.dropWhile isPySpace).reverse.dropWhile isPySpace).reverse

/-- Decimal rendering of a natural number, Python `str(n)`. -/
def natChars (n : Nat) : Text := Nat.toDigits 10 n

/-- Decimal rendering of an integer, Python `str(i)`. -/
def intChars (i : Int) : Text :=
  if i < 0 then '-' :: natChars i.natAbs else natChars i.natAbs

/-- Python `sep.join(parts)`. -/
def joinSep (sep : Text) : List Text → Text
  | [] => []
  | [x] => x
  | x :: y :: ys => x ++ sep ++ joinSep sep (y :: ys)

/-- Concatenation of a list of texts (Python `"".join(parts)`). -/
def catTexts {α : Type} : List (List α) → List α
  | [] => []
  | x :: xs => x ++ catTexts xs

/-- Pairs each element with its 1-based position (Python `enumerate(l, 1)` when
called with `n = 1`). -/
def enumFrom {α : Type} (n : Nat) : List α → List (Nat × α)
  | [] => []
  | x :: xs => (n, x) :: enumFrom (n + 1) xs

/-- First-match association lookup (Python `dict` indexing for the ordered-list
model of a dict). -/
def lookupT {β : Type} (k : Text) : List (Text × β) → Option β
  | [] => none
  | (k', v) :: rest => if k' == k then some v else lookupT k rest

/-!
Topic archive store, from `trendradar/topic/storage.py` (class `TopicStorage`).
Classified items are Python dicts read with `item.get(key, default)`; they are
modelled as a structure whose field defaults are exactly those `get` defaults,
so a missing dict key and a default field value are indistinguishable, as in the
source.
-/

/-- A classified item as consumed by `TopicStorage._generate_markdown`; field
defaults mirror the `item.get(...)` defaults of the source. -/
structure Item where
  title : Text
  source_type : Text
  source_id : Text := txt "未知"
  url : Text := []
  mobile_url : Text := []
  ranks : List Nat := []
  count : Nat := 1
  first_time : Text := []
  last_time : Text := []
  published_at : Text := []
  summary : Text := []
  author : Text := []
deriving DecidableEq

/-- Lines generated for one hotlist item by `_generate_markdown` (loop body at
storage.py lines 124-153), including the trailing empty line. -/
def hotItemLines (p : Nat × Item) : List Text :=
  let i := p.1
  let it := p.2
  let titleLine :=
    if it.url ≠ [] then
      natChars i ++ txt ". **[" ++ it.title ++ txt "](" ++ it.url ++ txt ")**"
    else
      natChars i ++ txt ". **" ++ it.title ++ txt "**"
  let sourceLine := txt "   - 来源: " ++ it.source_id ++ txt " | 出现 " ++ natChars it.count ++ txt " 次"
  let rankLines :=
    if it.ranks ≠ [] then
      let rank_str := joinSep (txt ", ") ((it.ranks.take 5).map (fun r => '#' :: natChars r)) ++
        (if it.ranks.length > 5 then txt "..." else [])
      [txt "   - 排名: " ++ rank_str]
    else []
  let timeLines :=
    if it.first_time ≠ [] then
      let time_display :=
        if it.first_time == it.last_time then it.first_time
        else it.first_time ++ txt " ~ " ++ it.last_time
      [txt "   - 时间: " ++ time_display]
    else []
  [titleLine, sourceLine] ++ rankLines ++ timeLines ++ [[]]

/-- Lines generated for one RSS item by `_generate_markdown` (loop body at
storage.py lines 159-186), including the trailing empty line. -/
def rssItemLines (p : Nat × Item) : List Text :=
  let i := p.1
  let it := p.2
  let titleLine :=
    if it.url ≠ [] then
      natChars i ++ txt ". **[" ++ it.title ++ txt "](" ++ it.url ++ txt ")**"
    else
      natChars i ++ txt ". **" ++ it.title ++ txt "**"
  let sourceLine := txt "   - 来源: " ++ it.source_id
  let pubLines :=
    if it.published_at ≠ [] then [txt "   - 发布时间: " ++ it.published_at] else []
  let authorLines :=
    if it.author ≠ [] then [txt "   - 作者: " ++ it.author] else []
  let summaryLines :=
    if it.summary ≠ [] then
      let summary_short :=
        if it.summary.length > 200 then it.summary.take 200 ++ txt "..." else it.summary
      [txt "   - 摘要: " ++ summary_short]
    else []
  [titleLine, sourceLine] ++ pubLines ++ authorLines ++ summaryLines ++ [[]]

/-- The human-notes placeholder comment written by a fresh record. -/
def notesPlaceholder : Text := txt "<!-- 在此添加你的分析和思考 -->"

/-- The star-rating template line written by a fresh record. -/
def starLine : Text := txt "重要度: ☐ 1星 ☐ 2星 ☐ 3星 ☐ 4星 ☐ 5星"

/-- The human-notes section header. -/
def notesMark : Text := txt "## 🖊️ 人工备注"

/-- The importance-marker section header. -/
def starMark : Text := txt "## ⭐ 重要度标记"

/-- `TopicStorage._generate_markdown` (storage.py lines 67-198): the full fresh
record for a (topic, date), derived from the item list. -/
def generate_markdown (date topic_name : Text) (items : List Item) : Text :=
  let hotlist_count := items.countP (fun it => it.source_type == txt "hotlist")
  let rss_count := items.countP (fun it => it.source_type == txt "rss")
  let headLines : List Text :=
    [txt "# " ++ topic_name ++ txt " - " ++ date ++ txt "\n",
     txt "## 📊 统计摘要\n",
     txt "- **总条目**: " ++ natChars items.length ++ txt " 条",
     txt "- **热榜来源**: " ++ natChars hotlist_count ++ txt " 条",
     txt "- **RSS来源**: " ++ natChars rss_count ++ txt " 条\n",
     txt "## 📰 内容列表\n"]
  let hotlist_items := items.filter (fun it => it.source_type == txt "hotlist")
  let hotBlock : List Text :=
    if hotlist_items ≠ [] then
      txt "### 热榜新闻\n" :: catTexts ((enumFrom 1 hotlist_items).map hotItemLines)
    else []
  let rss_items_list := items.filter (fun it => it.source_type == txt "rss")
  let rssBlock : List Text :=
    if rss_items_list ≠ [] then
      txt "### RSS订阅\n" :: catTexts ((enumFrom 1 rss_items_list).map rssItemLines)
    else []
  let tailLines : List Text :=
    [txt "\n---\n",
     notesMark ++ txt "\n",
     notesPlaceholder ++ txt "\n\n",
     starMark ++ txt "\n",
     txt "<!-- 1-5星，数字越大越重要 -->\n",
     starLine ++ txt "\n"]
  joinSep (txt "\n") (headLines ++ hotBlock ++ rssBlock ++ tailLines)

/-- The derived (regenerated) part of a fresh record: everything
`_generate_markdown` emits before the horizontal rule that opens the
human-editable regions; `generate_markdown` is this followed by `recordTail`. -/
def record_body (date topic_name : Text) (items : List Item) : Text :=
  let hotlist_count := items.countP (fun it => it.source_type == txt "hotlist")
  let rss_count := items.countP (fun it => it.source_type == txt "rss")
  let headLines : List Text :=
    [txt "# " ++ topic_name ++ txt " - " ++ date ++ txt "\n",
     txt "## 📊 统计摘要\n",
     txt "- **总条目**: " ++ natChars items.length ++ txt " 条",
     txt "- **热榜来源**: " ++ natChars hotlist_count ++ txt " 条",
     txt "- **RSS来源**: " ++ natChars rss_count ++ txt " 条\n",
     txt "## 📰 内容列表\n"]
  let hotlist_items := items.filter (fun it => it.source_type == txt "hotlist")
  let hotBlock : List Text :=
    if hotlist_items ≠ [] then
      txt "### 热榜新闻\n" :: catTexts ((enumFrom 1 hotlist_items).map hotItemLines)
    else []
  let rss_items_list := items.filter (fun it => it.source_type == txt "rss")
  let rssBlock : List Text :=
    if rss_items_list ≠ [] then
      txt "### RSS订阅\n" :: catTexts ((enumFrom 1 rss_items_list).map rssItemLines)
    else []
  joinSep (txt "\n") (headLines ++ hotBlock ++ rssBlock)

/-- The fixed tail every fresh record ends with: the rule, the two section
headers, the placeholder comment, the importance comment and the star-rating
template line, joined exactly as `_generate_markdown` joins them. -/
def recordTail : Text :=
  txt "\n" ++ joinSep (txt "\n")
    [txt "\n---\n",
     notesMark ++ txt "\n",
     notesPlaceholder ++ txt "\n\n",
     starMark ++ txt "\n",
     txt "<!-- 1-5星，数字越大越重要 -->\n",
     starLine ++ txt "\n"]

/-- The segment of `recordTail` before the notes placeholder. -/
def notesLead : Text := txt "\n\n---\n\n" ++ notesMark ++ txt "\n\n"

/-- The segment of `recordTail` between the notes placeholder and the
star-rating template line. -/
def importanceLead : Text :=
  txt "\n\n\n" ++ starMark ++ txt "\n\n" ++ txt "<!-- 1-5星，数字越大越重要 -->" ++ txt "\n\n"

/-- The human-region extraction of `TopicStorage._append_to_existing`
(storage.py lines 216-227): returns (human_notes, importance), both stripped,
both empty when the notes header is absent. -/
def extract_regions (existing_content : Text) : Text × Text :=
  if isSubstr notesMark existing_content then
    match pySplit notesMark existing_content with
    | _ :: p1 :: _ =>
      let notes_section := pySplit starMark p1
      let human_notes := pyStrip (notes_section.headD [])
      let importance :=
        match notes_section with
        | _ :: i :: _ => pyStrip i
        | _ => []
      (human_notes, importance)
    | _ => ([], [])
  else ([], [])

/-- The topic-name recovery of `TopicStorage._append_to_existing`
(storage.py lines 230-237): the parent directory name (the topic id) unless the
first line of the existing file looks like a generated title. -/
def recover_topic_name (topic_id existing_content : Text) : Text :=
  if isSubstr (txt "# ") existing_content then
    let first_line := (pySplit (txt "\n") existing_content).headD []
    if isSubstr (txt " - ") first_line then
      pyStrip (pyReplace (txt "#") [] ((pySplit (txt " - ") first_line).headD []))
    else topic_id
  else topic_id

/-- `TopicStorage._append_to_existing` (storage.py lines 200-256): regenerates
the record from the new items and splices the extracted human regions back in;
returns the content written back to the file. -/
def append_to_existing (date topic_id : Text) (existing_content : Text)
    (new_items : List Item) : Text :=
  let regions := extract_regions existing_content
  let human_notes := regions.1
  let importance := regions.2
  let topic_name := recover_topic_name topic_id existing_content
  let content := generate_markdown date topic_name new_items
  let content := if human_notes ≠ [] then pyReplace notesPlaceholder human_notes content else content
  let content := if importance ≠ [] then pyReplace starLine importance content else content
  content

/-- `TopicStorage.save_topic_classification` (storage.py lines 29-65): the file
system is modelled by the optional existing content of the target file, and the
result is the content the call writes there. -/
def save_topic_classification (date topic_id topic_name : Text) (items : List Item)
    (append : Bool) (existing : Option Text) : Text :=
  match existing, append with
  | some c, true => append_to_existing date topic_id c items
  | _, _ => generate_markdown date topic_name items

/-!
Calendar dates, for `HistorySummarizer._get_date_range` (summarizer.py lines
98-124).  Python `datetime.strptime(end_date, "%Y-%m-%d")` values are modelled
as proleptic Gregorian (year, month, day) triples; `end - timedelta(days=i)` is
`subDays end i`, and `strftime("%Y-%m-%d")` is `formatDate`.
-/

/-- A calendar date. -/
structure Date where
  year : Nat
  month : Nat
  day : Nat
deriving DecidableEq

/-- Gregorian leap-year rule. -/
def isLeap (y : Nat) : Bool :=
  (y % 4 == 0 && y % 100 != 0) || y % 400 == 0

/-- Number of days of month `m` of year `y`. -/
def daysInMonth (y m : Nat) : Nat :=
  match m with
  | 1 => 31
  | 2 => if isLeap y then 29 else 28
  | 3 => 31
  | 4 => 30
  | 5 => 31
  | 6 => 30
  | 7 => 31
  | 8 => 31
  | 9 => 30
  | 10 => 31
  | 11 => 30
  | 12 => 31
  | _ => 0

/-- The calendar date one day earlier. -/
def prevDay (d : Date) : Date :=
  if d.day > 1 then ⟨d.year, d.month, d.day - 1⟩
  else if d.month > 1 then ⟨d.year, d.month - 1, daysInMonth d.year (d.month - 1)⟩
  else ⟨d.year - 1, 12, 31⟩

/-- The calendar date `n` days earlier (Python `d - timedelta(days=n)`). -/
def subDays (d : Date) : Nat → Date
  | 0 => d
  | n + 1 => prevDay (subDays d n)

/-- Days of year `y` before the first day of month `m`. -/
def daysBeforeMonth (y m : Nat) : Nat :=
  let L : Nat := if isLeap y then 1 else 0
  match m with
  | 1 => 0
  | 2 => 31
  | 3 => 59 + L
  | 4 => 90 + L
  | 5 => 120 + L
  | 6 => 151 + L
  | 7 => 181 + L
  | 8 => 212 + L
  | 9 => 243 + L
  | 10 => 273 + L
  | 11 => 304 + L
  | 12 => 334 + L
  | _ => 0

/-- Rata-die day number of a date (0001-01-01 has number 1); the order of
calendar dates. -/
def toOrd (d : Date) : Nat :=
  365 * (d.year - 1) + (d.year - 1) / 4 - (d.year - 1) / 100 + (d.year - 1) / 400 +
    daysBeforeMonth d.year d.month + d.day

/-- A well-formed calendar date (the range on which Python `datetime` arithmetic
is defined). -/
def ValidDate (d : Date) : Prop :=
  1 ≤ d.year ∧ 1 ≤ d.month ∧ d.month ≤ 12 ∧ 1 ≤ d.day ∧ d.day ≤ daysInMonth d.year d.month

instance (d : Date) : Decidable (ValidDate d) := by
  unfold ValidDate
  infer_instance

/-- Zero-padded two-digit rendering (`%m`, `%d`). -/
def pad2 (n : Nat) : Text :=
  if n < 10 then '0' :: natChars n else natChars n

/-- Zero-padded four-digit rendering (`%Y` for the years used here). -/
def pad4 (n : Nat) : Text :=
  if n < 10 then '0' :: '0' :: '0' :: natChars n
  else if n < 100 then '0' :: '0' :: natChars n
  else if n < 1000 then '0' :: natChars n
  else natChars n

/-- Python `d.strftime("%Y-%m-%d")`. -/
def formatDate (d : Date) : Text :=
  pad4 d.year ++ '-' :: pad2 d.month ++ '-' :: pad2 d.day

/-- `HistorySummarizer._get_date_range` (summarizer.py lines 98-124): the
formatted dates `end - i` for `i` in `range(start_offset, days + start_offset)`. -/
def get_date_range (end_ : Date) (days : Nat) (exclude_current : Bool) : List Text :=
  let start_offset := if exclude_current then 1 else 0
  (List.range days).map (fun i => formatDate (subDays end_ (i + start_offset)))

/-!
History summarizer, from `trendradar/topic/summarizer.py` (class
`HistorySummarizer`).  The archive-store state is modelled as the list of topic
directories in directory-iteration order, each carrying its date-indexed files:
`read_topic_file` is lookup, a missing entry is a missing file.
-/

/-- The archive-store state seen by the summarizer. -/
abbrev Store := List (Text × List (Text × Text))

/-- `TopicStorage.read_topic_file` (storage.py lines 258-274). -/
def read_topic_file (store : Store) (topic_id date : Text) : Option Text :=
  match lookupT topic_id store with
  | none => none
  | some files => lookupT date files

/-- Python `int(s)` on an already stripped string: an optional sign followed by
decimal digits (the underscore grouping Python also accepts never occurs here);
`none` models the `ValueError` swallowed by the caller. -/
def pyParseInt (s : Text) : Option Int :=
  let core : Text → Option Int := fun ds =>
    if ds ≠ [] ∧ ds.all Char.isDigit then
      some (Int.ofNat (ds.foldl (fun a c => a * 10 + (c.toNat - '0'.toNat)) 0))
    else none
  match s with
  | '-' :: rest => (core rest).map Int.neg
  | '+' :: rest => core rest
  | _ => core s

/-- The per-line statistics update of `HistorySummarizer._extract_stats`
(summarizer.py lines 198-213); the parsed value of a matching line, `none` when
the `try` block fails. -/
def statValue (line : Text) : Option Int :=
  match pySplit (txt ":") line with
  | _ :: x :: _ =>
    pyParseInt (pyReplace (txt "**") [] (pyStrip ((pySplit (txt "条") x).headD [])))
  | _ => none

/-- `HistorySummarizer._extract_stats` (summarizer.py lines 190-215): the
(total_items, hotlist, rss) triple; the last matching line of each kind wins. -/
def extract_stats (content : Text) : Int × Int × Int :=
  (pySplit (txt "\n") content).foldl
    (fun st line =>
      if isSubstr (txt "总条目") line then
        match statValue line with
        | some v => (v, st.2.1, st.2.2)
        | none => st
      else if isSubstr (txt "热榜来源") line then
        match statValue line with
        | some v => (st.1, v, st.2.2)
        | none => st
      else if isSubstr (txt "RSS来源") line then
        match statValue line with
        | some v => (st.1, st.2.1, v)
        | none => st
      else st)
    (0, 0, 0)

/-- `HistorySummarizer._extract_human_notes` (summarizer.py lines 217-233). -/
def extract_human_notes (content : Text) : Text :=
  if isSubstr notesMark content then
    match pySplit notesMark content with
    | _ :: p1 :: _ =>
      let notes_section := (pySplit starMark p1).headD []
      let notes := pyStrip (pyReplace (txt "-->") [] (pyReplace (txt "<!--") [] notes_section))
      if isSubstr (txt "在此添加你的分析和思考") notes then [] else notes
    | _ => []
  else []

/-- `HistorySummarizer._summarize_topic_history` (summarizer.py lines 126-188):
the (topic_name, content) pair, or `none` when no date in the window qualifies. -/
def summarize_topic_history (store : Store) (topic_id : Text) (dates : List Text) :
    Option (Text × Text) :=
  let history_items : List (Text × (Int × Int × Int) × Text) :=
    dates.filterMap (fun date =>
      match read_topic_file store topic_id date with
      | none => none
      | some content =>
        if content = [] then none
        else
          let stats := extract_stats content
          let human_notes := extract_human_notes content
          if stats.1 > 0 then some (date, stats, human_notes) else none)
  match history_items with
  | [] => none
  | first :: restH =>
    let topic_name :=
      match read_topic_file store topic_id first.1 with
      | some fc =>
        if fc ≠ [] ∧ (txt "#").isPrefixOf fc then
          let first_line := (pySplit (txt "\n") fc).headD []
          if isSubstr (txt " - ") first_line then
            pyStrip (pyReplace (txt "#") [] ((pySplit (txt " - ") first_line).headD []))
          else topic_id
        else topic_id
      | none => topic_id
    let content_lines := catTexts ((first :: restH).map (fun h =>
      [txt "**" ++ h.1 ++ txt "**: " ++ intChars h.2.1.1 ++ txt "条 (热榜" ++
        intChars h.2.1.2.1 ++ txt ", RSS" ++ intChars h.2.1.2.2 ++ txt ")"] ++
      (if h.2.2 ≠ [] then
        [txt "  > 备注: " ++ h.2.2.take 100 ++ (if h.2.2.length > 100 then txt "..." else [])]
      else [])))
    some (topic_name, joinSep (txt "\n") content_lines)

/-- The in-band truncation notice appended when the budget would be exceeded
(summarizer.py line 83). -/
def truncNotice : Text := txt "\n> ⚠️ 历史数据过多，已截断...\n"

/-- The topic-iteration loop of `HistorySummarizer.get_recent_summaries`
(summarizer.py lines 70-87): collects subsection texts, stopping with the
truncation notice when the running total would exceed the budget. -/
def collectSummaries (store : Store) (dates : List Text) (max_chars : Nat) :
    List (Text × List (Text × Text)) → Nat → List Text
  | [], _ => []
  | (topic_id, _) :: rest, total_chars =>
    match summarize_topic_history store topic_id dates with
    | none => collectSummaries store dates max_chars rest total_chars
    | some (topic_name, content) =>
      let summary_text := txt "### " ++ topic_name ++ txt "\n\n" ++ content ++ txt "\n"
      if total_chars + summary_text.length > max_chars then [truncNotice]
      else summary_text :: collectSummaries store dates max_chars rest (total_chars + summary_text.length)

/-- The two header lines of the digest (summarizer.py lines 93-94). -/
def digestHeader (dates : List Text) : Text :=
  txt "## 📊 最近" ++ natChars dates.length ++ txt "天同主题历史\n\n" ++
    txt "> 时间范围: " ++ dates.getLastD [] ++ txt " 至 " ++ dates.headD [] ++ txt "\n\n"

/-- `HistorySummarizer.get_recent_summaries` (summarizer.py lines 33-96); the
character budget `int(max_tokens * 1.5)` is `max_tokens * 3 / 2` (exact for the
integer token counts in range). -/
def get_recent_summaries (store : Store) (days : Nat) (current_date : Date)
    (max_tokens : Nat) : Text :=
  let dates := get_date_range current_date days true
  if dates = [] then []
  else
    let max_chars := max_tokens * 3 / 2
    let summaries := collectSummaries store dates max_chars store 0
    if summaries = [] then []
    else digestHeader dates ++ joinSep (txt "\n") summaries

/-!
Legacy router, from `topic-layer/router.py` (class `TopicRouter`): the keyword
matcher built on the regex `\b<escaped keyword>\b` and the URL-deduplicating
timeline writer.
-/

/-- A word character for the Python regex `\b` boundary (`\w` with `re.UNICODE`):
ASCII alphanumerics, the underscore, and — since Python treats them as word
characters — CJK ideographs and kana/hangul; this covers the character
repertoire appearing in this code base (Python additionally covers other
Unicode letters). -/
def isWordChar (c : Char) : Bool :=
  c.isAlphanum || c == '_' ||
    (0x3400 ≤ c.toNat && c.toNat ≤ 0x4DBF) ||
    (0x4E00 ≤ c.toNat && c.toNat ≤ 0x9FFF) ||
    (0x3040 ≤ c.toNat && c.toNat ≤ 0x30FF) ||
    (0xAC00 ≤ c.toNat && c.toNat ≤ 0xD7AF)

/-- Python `str.lower()` on the repertoire used here (ASCII case folding; CJK
characters are unchanged). -/
def pyLower (c : Char) : Char :=
  if c.isUpper then c.toLower else c

/-- Whether the (0-based) position `p` of `t` is a word character; out-of-range
positions count as non-word, as at the ends of a regex subject. -/
def wordAt (t : Text) (p : Nat) : Bool :=
  isWordChar (t.getD p ' ')

/-- The Python regex `\b` assertion at position `p` of `t`: exactly one of the
two neighbouring positions holds a word character. -/
def boundaryAt (t : Text) (p : Nat) : Bool :=
  (match p with
   | 0 => false
   | q + 1 => wordAt t q) != wordAt t p

/-- `re.search(r'\b' + re.escape(k) + r'\b', t)` as a Boolean: some position of
`t` starts an occurrence of the literal `k` with `\b` holding on both sides. -/
def reSearchBounded (k t : Text) : Bool :=
  (List.range (t.length + 1)).any (fun i =>
    k.isPrefixOf (t.drop i) && boundaryAt t i && boundaryAt t (i + k.length))

/-- `TopicRouter.match_keywords` (router.py lines 124-147): case-insensitive,
`\b`-bounded search for any of the keywords. -/
def match_keywords (text : Text) (keywords : List Text) : Bool :=
  let text_lower := text.map pyLower
  keywords.any (fun keyword => reSearchBounded (keyword.map pyLower) text_lower)

/-- A trend row as produced by `TopicRouter.get_all_trends`: `url` is `None`
or a non-empty string there (`url if url else None`), so the `Option` models
Python `None` and string truthiness coincides with `isSome`. -/
structure Trend where
  title : Text
  url : Option Text
  date : Text
  source : Text
  summary : Option Text := none
deriving DecidableEq

/-- Maximal run of non-whitespace characters (the regex `[^\s\n]+` greedy
match). -/
def urlChars (s : Text) : Text := s.takeWhile (fun c => !isPySpace c)

/-- The hyperlink marker preceding each recorded URL. -/
def linkMark : Text := txt "**链接**："

/-- Whether a candidate capture starts with `http://` or `https://` followed by
at least one further character (the regex `https?://[^\s\n]+`). -/
def schemeOk (u : Text) : Bool :=
  ((txt "http://").isPrefixOf u && u.length > 7) ||
    ((txt "https://").isPrefixOf u && u.length > 8)

/-- Worker for `extractUrls` with explicit fuel (each step consumes at least one
character of the scanned text). -/
def extractUrlsFuel : Nat → Text → List Text
  | 0, _ => []
  | fuel + 1, s =>
    match s with
    | [] => []
    | _ :: cs =>
      if linkMark.isPrefixOf s then
        let rest := s.drop linkMark.length
        let u := urlChars rest
        if schemeOk u then u :: extractUrlsFuel fuel (rest.drop u.length)
        else extractUrlsFuel fuel cs
      else extractUrlsFuel fuel cs

/-- `re.findall(r'\*\*链接\*\*：(https?://[^\s\n]+)', content)`: every captured
URL, scanning non-overlapping matches left to right (router.py line 188). -/
def extractUrls (content : Text) : List Text :=
  extractUrlsFuel (content.length + 1) content

/-- `TopicRouter.load_existing_urls` (router.py lines 173-191): the URLs
recorded in the timeline file, empty when the file does not exist.  Python
collects them into a `set`; only membership is ever used, so a list is kept. -/
def load_existing_urls (timeline_file : Option Text) : List Text :=
  match timeline_file with
  | none => []
  | some content => extractUrls content

/-- The dedup filter inside `TopicRouter.generate_timeline` (router.py lines
228-237): keep a trend when its url is `None` or not among the existing URLs. -/
def filter_new_trends (existing_urls : List Text) (trends : List Trend) : List Trend :=
  trends.filter (fun trend =>
    match trend.url with
    | none => true
    | some u => !existing_urls.contains u)

/-- Ordered-dict grouping (`TopicRouter.group_by_date`, router.py lines
193-206): groups in first-occurrence key order, preserving order within each
group.  Also reused for the classifier result dict. -/
def addToBucket {α : Type} : List (Text × List α) → Text → α → List (Text × List α)
  | [], key, x => [(key, [x])]
  | (k, l) :: rest, key, x =>
    if k == key then (k, l ++ [x]) :: rest
    else (k, l) :: addToBucket rest key x

/-- `TopicRouter.group_by_date` (router.py lines 193-206). -/
def group_by_date (trends : List Trend) : List (Text × List Trend) :=
  trends.foldl (fun g trend => addToBucket g trend.date trend) []

/-- Python string comparison (lexicographic by code point), as a strict
less-than test. -/
def textLt : Text → Text → Bool
  | [], [] => false
  | [], _ :: _ => true
  | _ :: _, [] => false
  | a :: as, b :: bs => if a < b then true else if b < a then false else textLt as bs

/-- Insertion step of descending sort. -/
def insertDesc (x : Text) : List Text → List Text
  | [] => [x]
  | y :: ys => if textLt y x then x :: y :: ys else y :: insertDesc x ys

/-- Python `sorted(keys, reverse=True)` (stability is irrelevant: dict keys are
distinct). -/
def sortDesc : List Text → List Text
  | [] => []
  | x :: xs => insertDesc x (sortDesc xs)

/-- Python `x if x else dflt` for an optional string (`None` and the empty
string are both falsy). -/
def optText (o : Option Text) (dflt : Text) : Text :=
  match o with
  | none => dflt
  | some s => if s = [] then dflt else s

/-- The per-trend block of the timeline body (router.py lines 259-264). -/
def trendBlock (trend : Trend) : Text :=
  txt "\n**标题**：" ++ trend.title ++ txt "  \n" ++
  txt "**来源**：" ++ trend.source ++ txt "  \n" ++
  linkMark ++ optText trend.url (txt "（无链接）") ++ txt "\n" ++
  txt "\n**摘要**：  \n" ++ optText trend.summary (txt "（无摘要）") ++ txt "\n" ++
  txt "\n**我的判断**：  \n（留空，供人工补充）\n" ++
  txt "\n---\n"

/-- The freshly generated body sections of `generate_timeline` (router.py lines
248-264), one date section per existing group key in descending date order. -/
def newContent (grouped : List (Text × List Trend)) (sorted_dates : List Text) : Text :=
  catTexts (sorted_dates.map (fun date =>
    txt "\n## " ++ date ++ txt "\n" ++
      catTexts (((lookupT date grouped).getD []).map trendBlock)))

/-- The line index just after the first heading line (router.py lines 271-277):
`i + 1` for the first line starting with `#`, `0` when there is none. -/
def headerEndLine : List Text → Nat → Nat
  | [], _ => 0
  | line :: rest, i =>
    if (txt "#").isPrefixOf line then i + 1 else headerEndLine rest (i + 1)

/-- `TopicRouter.generate_timeline` (router.py lines 208-296): `none` models
the early return that leaves the timeline file untouched; `some c` models
writing `c` to the file. -/
def generate_timeline (topic_name : Text) (timeline_file : Option Text)
    (trends : List Trend) : Option Text :=
  let existing_urls := load_existing_urls timeline_file
  let new_trends := filter_new_trends existing_urls trends
  if new_trends = [] then none
  else
    let grouped := group_by_date new_trends
    let sorted_dates := sortDesc (grouped.map (fun g => g.1))
    let body := newContent grouped sorted_dates
    match timeline_file with
    | some existing_content =>
      let lines := pySplit (txt "\n") existing_content
      let header_end_line := headerEndLine lines 0
      let header_lines := lines.take header_end_line
      let body_lines := lines.drop header_end_line
      some (joinSep (txt "\n") header_lines ++ txt "\n" ++ body ++ joinSep (txt "\n") body_lines)
    | none => some (txt "# " ++ topic_name ++ txt "\n" ++ body)

/-!
Topic classifier, from `trendradar/topic/classifier.py` (class
`TopicClassifier`).  The leaf keyword matcher `_word_matches` is imported there
from `trendradar.core.frequency`, a module outside this repository snapshot;
the classifier never inspects it, so it is a parameter `wm` of the embedding.
-/

/-- A validated topic definition (classifier.py lines 71-77). -/
structure TopicDef where
  id : Text
  name : Text
  keywords : List Text
  description : Text := []
  priority : Int := 999
deriving DecidableEq

/-- A raw entry of the `topics` sequence of the YAML configuration, as seen
after `yaml.safe_load`: either not a dict at all, or a dict whose optional
fields carry the `.get` results (a missing `id`/`name` and an empty string, and
a missing `keywords` and an empty list, are indistinguishable to the code, so
they share a representation). -/
inductive RawTopic where
  | notDict
  | entry (id name : Text) (keywords : List Text) (description : Option Text)
      (priority : Option Int)
deriving DecidableEq

/-- The state of the topic configuration file for `_load_topics`: missing file,
a file whose open/parse raises (the `except` path), or a parsed `topics` list
(`data.get("topics", [])`). -/
inductive ConfigFile where
  | missing
  | unreadable
  | parsed (topics : List RawTopic)
deriving DecidableEq

/-- The validation loop of `TopicClassifier._load_topics` (classifier.py lines
58-77): skips non-dict entries and entries missing id, name or keywords;
defaults description to the empty string and priority to 999. -/
def validate_topics : List RawTopic → List TopicDef
  | [] => []
  | .notDict :: rest => validate_topics rest
  | .entry id name keywords description priority :: rest =>
    if id = [] ∨ name = [] ∨ keywords = [] then validate_topics rest
    else ⟨id, name, keywords, description.getD [], priority.getD 999⟩ :: validate_topics rest

/-- `TopicClassifier._load_topics` (classifier.py lines 29-84). -/
def load_topics : ConfigFile → List TopicDef
  | .missing => []
  | .unreadable => []
  | .parsed topics => if topics = [] then [] else validate_topics topics

/-- Declarative normalization of one raw entry, used to state what
`load_topics` keeps: `none` for a dropped entry, the validated definition
otherwise. -/
def normalizeEntry : RawTopic → Option TopicDef
  | .notDict => none
  | .entry id name keywords description priority =>
    if id = [] ∨ name = [] ∨ keywords = [] then none
    else some ⟨id, name, keywords, description.getD [], priority.getD 999⟩

/-- `TopicClassifier._match_topics` (classifier.py lines 148-169), parameterized
by the leaf matcher `wm` (`_word_matches`): the ids of every topic one of whose
keywords matches the title; the inner loop stops at the first matching keyword
(`List.any` short-circuits), the outer loop visits every topic. -/
def match_topics (wm : Text → Text → Bool) (title : Text) : List TopicDef → List Text
  | [] => []
  | topic :: rest =>
    if topic.keywords.any (fun keyword => wm title keyword) then
      topic.id :: match_topics wm title rest
    else match_topics wm title rest

/-- The per-source hotlist title data (`title_data.get(...)` defaults as field
defaults). -/
structure HotData where
  url : Text := []
  mobile_url : Text := []
  ranks : List Nat := []
  count : Nat := 1
  first_time : Text := []
  last_time : Text := []
deriving DecidableEq

/-- The per-feed RSS item data (`item_data.get(...)` defaults as field
defaults). -/
structure RssData where
  url : Text := []
  published_at : Text := []
  summary : Text := []
  author : Text := []
deriving DecidableEq

/-- The classified-item dict built for a hotlist title (classifier.py lines
115-125). -/
def mkHotItem (source_id title : Text) (d : HotData) : Item :=
  { title := title, source_type := txt "hotlist", source_id := source_id,
    url := d.url, mobile_url := d.mobile_url, ranks := d.ranks, count := d.count,
    first_time := d.first_time, last_time := d.last_time,
    published_at := [], summary := [], author := [] }

/-- The classified-item dict built for an RSS title (classifier.py lines
136-144). -/
def mkRssItem (feed_id title : Text) (d : RssData) : Item :=
  { title := title, source_type := txt "rss", source_id := feed_id,
    url := d.url, mobile_url := [], ranks := [], count := 1,
    first_time := [], last_time := [],
    published_at := d.published_at, summary := d.summary, author := d.author }

/-- The classifier result dict: topic id to item list, in first-insertion key
order. -/
abbrev Buckets := List (Text × List Item)

/-- Appends one classified item to the bucket of every matched topic id
(classifier.py lines 111-125 inner loop). -/
def addAll (res : Buckets) (matched : List Text) (item : Item) : Buckets :=
  matched.foldl (fun r topic_id => addToBucket r topic_id item) res

/-- One source's title loop of `classify` (classifier.py lines 109-125 and
130-144), generic over the per-source data type. -/
def classifyTitles {δ : Type} (wm : Text → Text → Bool) (topics : List TopicDef)
    (mk : Text → Text → δ → Item) (source_id : Text) (titles : List (Text × δ))
    (res : Buckets) : Buckets :=
  titles.foldl (fun r p => addAll r (match_topics wm p.1 topics) (mk source_id p.1 p.2)) res

/-- The source loop of `classify`, generic over the per-source data type. -/
def classifySources {δ : Type} (wm : Text → Text → Bool) (topics : List TopicDef)
    (mk : Text → Text → δ → Item) (inputs : List (Text × List (Text × δ)))
    (res : Buckets) : Buckets :=
  inputs.foldl (fun r p => classifyTitles wm topics mk p.1 p.2 r) res

/-- `TopicClassifier.classify` (classifier.py lines 86-146): hotlist sources
first, then RSS sources, appending each matched item to the topic buckets. -/
def classify (wm : Text → Text → Bool) (topics : List TopicDef)
    (news_items : List (Text × List (Text × HotData)))
    (rss_items : List (Text × List (Text × RssData))) : Buckets :=
  if topics = [] then []
  else classifySources wm topics mkRssItem rss_items
    (classifySources wm topics mkHotItem news_items [])

/-- The item list of a topic bucket (missing key reads as the empty list). -/
def bucketOf (res : Buckets) (topic_id : Text) : List Item :=
  (lookupT topic_id res).getD []

/-- An item list in which every hotlist item precedes every RSS item. -/
def HotThenRss (l : List Item) : Prop :=
  ∃ hs rs, l = hs ++ rs ∧
    (∀ x ∈ hs, x.source_type = txt "hotlist") ∧
    (∀ x ∈ rs, x.source_type = txt "rss")

/-- Total character count of a list of texts. -/
def sumLens : List Text → Nat
  | [] => 0
  | x :: xs => x.length + sumLens xs

/-!
Concrete instances used by the claims about the archive store.
-/

/-- The hotlist item of the end-to-end example of the specification. -/
def c1_item : Item :=
  { title := txt "OpenAI发布新模型", source_type := txt "hotlist",
    source_id := txt "src1", url := txt "http://x/1", ranks := [1], count := 2,
    first_time := txt "09:00", last_time := txt "10:00" }

/-- First save for (ai-tech, 2026-01-20): no existing file, default append mode. -/
def c1_first_output : Text :=
  save_topic_classification (txt "2026-01-20") (txt "ai-tech") (txt "AI")
    [c1_item] true none

/-- Second save with the identical item list, append mode, on the file produced
by the first call. -/
def c1_second_output : Text :=
  save_topic_classification (txt "2026-01-20") (txt "ai-tech") (txt "AI")
    [c1_item] true (some c1_first_output)

/-- The importance-region comment line written by a fresh record. -/
def starComment : Text := txt "<!-- 1-5星，数字越大越重要 -->"

/-- Two archive-store items used as the pre-existing record content for the
human-region preservation claims. -/
def c2_oldItems : List Item :=
  [{ title := txt "旧闻一", source_type := txt "hotlist", source_id := txt "s1" },
   { title := txt "旧闻二", source_type := txt "rss", source_id := txt "f1" }]

/-- The fresh record the old items generate. -/
def c2_base : Text := generate_markdown (txt "2026-01-20") (txt "AI") c2_oldItems

/-- Edited importance region content. -/
def c2_I : Text := txt "重要度: ★★★★★"

/-- Pathological human notes: the human pasted the star-rating template line
into the notes region. -/
def c2_badN : Text := starLine

/-- An existing record whose importance region was edited to `c2_I` and whose
human-notes region holds `c2_badN`. -/
def c2_badRecord : Text :=
  pyReplace notesPlaceholder c2_badN (pyReplace starLine c2_I c2_base)

/-- The new, different item list of the re-run. -/
def c2_newItems : List Item :=
  [{ title := txt "新闻新", source_type := txt "hotlist", source_id := txt "s2" }]

/-- The append-mode re-run on the pathological record. -/
def c2_badOutput : Text :=
  append_to_existing (txt "2026-01-20") (txt "ai-tech") c2_badRecord c2_newItems

/-- Ordinary human notes, not containing the star-rating template line. -/
def c2_goodN : Text := txt "分析：关注后续进展"

/-- An existing record whose importance region was edited to `c2_I` and whose
human-notes region holds `c2_goodN`. -/
def c2_goodRecord : Text :=
  pyReplace notesPlaceholder c2_goodN (pyReplace starLine c2_I c2_base)

/-- The store with one topic directory holding one qualifying record, used
against the token-budget claim. -/
def c3_store : Store :=
  [(txt "t1", [(txt "2026-01-19",
    generate_markdown (txt "2026-01-19") (txt "科技")
      [{ title := txt "A新闻", source_type := txt "hotlist", source_id := txt "s" }])])]

/-- Timeline candidate with URL u1. -/
def c5_t1 : Trend :=
  { title := txt "AI发展", url := some (txt "https://a/1"), date := txt "2026-01-19",
    source := txt "s1" }

/-- Timeline candidate with URL u2. -/
def c5_t2 : Trend :=
  { title := txt "芯片动态", url := some (txt "https://a/2"), date := txt "2026-01-18",
    source := txt "s2" }

/-- Timeline candidate with fresh URL u3. -/
def c5_t3 : Trend :=
  { title := txt "新品发布", url := some (txt "https://a/3"), date := txt "2026-01-19",
    source := txt "s3" }

/-- Timeline candidate without URL. -/
def c5_n1 : Trend :=
  { title := txt "无链一", url := none, date := txt "2026-01-19", source := txt "s4" }

/-- Timeline candidate without URL. -/
def c5_n2 : Trend :=
  { title := txt "无链二", url := none, date := txt "2026-01-18", source := txt "s5" }

/-- An existing timeline file recording exactly the URLs u1 and u2, produced by
the timeline writer itself. -/
def c5_file : Text :=
  (generate_timeline (txt "科技") none [c5_t1, c5_t2]).getD []

/-!
Theorems.  Each claim of the specification is settled below; helper lemmas
come first.
-/

/-- C1: the claim asserts byte-identical output for a repeated save with an
identical item list; in fact the second, append-mode call duplicates the
importance-region comment line: the second output equals the first with the
star-rating line replaced by the comment line, a blank line and the star-rating
line, hence differs from it. -/
theorem c1_divergence :
    c1_second_output ≠ c1_first_output ∧
    c1_second_output =
      pyReplace starLine (starComment ++ txt "\n\n" ++ starLine) c1_first_output := by
  decide

/-- C2 counterexample: an existing record whose human-notes region holds the
non-placeholder text `c2_badN` (the star-rating template line, pasted by a
human) and whose importance region holds edited text; the append-mode re-run
with a different item list does not contain that notes text verbatim, because
the later global replacement of the star-rating line also rewrites the spliced
notes. -/
theorem c2_counterexample :
    (extract_regions c2_badRecord).1 = c2_badN ∧
    c2_badN ≠ [] ∧
    c2_badN ≠ notesPlaceholder ∧
    isSubstr c2_badN c2_badOutput = false := by
  decide

theorem isSubstr_iff (pat s : Text) :
    isSubstr pat s = true ↔ ∃ i, pat.isPrefixOf (s.drop i) = true := by
  induction s with
  | nil =>
    cases pat with
    | nil => exact ⟨fun _ => ⟨0, rfl⟩, fun _ => rfl⟩
    | cons p ps =>
      constructor
      · intro h
        exact absurd h (by simp [isSubstr, findSub])
      · rintro ⟨i, hi⟩
        rw [List.drop_nil] at hi
        exact absurd hi (by simp [List.isPrefixOf])
  | cons c cs ih =>
    by_cases hp : pat.isPrefixOf (c :: cs) = true
    · constructor
      · intro _
        exact ⟨0, hp⟩
      · intro _
        simp [isSubstr, findSub, hp]
    · have hLHS : isSubstr pat (c :: cs) = isSubstr pat cs := by
        simp only [isSubstr, findSub, Bool.not_eq_true] at hp ⊢
        rw [hp]
        cases hf : findSub pat cs <;> simp
      rw [hLHS, ih]
      constructor
      · rintro ⟨i, hi⟩
        exact ⟨i + 1, hi⟩
      · rintro ⟨i, hi⟩
        cases i with
        | zero => exact absurd hi hp
        | succ j => exact ⟨j, hi⟩

theorem findSub_append_right (pat a b : Text)
    (hno : ∀ j, j < a.length → pat.isPrefixOf ((a ++ b).drop j) = false) :
    findSub pat (a ++ b) = (findSub pat b).map (· + a.length) := by
  induction a with
  | nil =>
    simp only [List.nil_append, List.length_nil]
    cases findSub pat b <;> simp
  | cons x a' ih =>
    have hx := hno 0 (by simp)
    rw [List.drop_zero, List.cons_append] at hx
    have hrec : ∀ j, j < a'.length → pat.isPrefixOf ((a' ++ b).drop j) = false := by
      intro j hj
      exact hno (j + 1) (by simp; omega)
    rw [List.cons_append]
    simp only [findSub, hx, Bool.false_eq_true, if_false, ih hrec]
    cases hb : findSub pat b with
    | none => rfl
    | some v =>
      show some (v + a'.length + 1) = some (v + (x :: a').length)
      rw [List.length_cons, Nat.add_assoc]

theorem isPrefixOf_append_left (pat a b : Text) (hpre : pat.isPrefixOf (a ++ b) = true)
    (hlen : pat.length ≤ a.length) : pat.isPrefixOf a = true := by
  rw [List.isPrefixOf_iff_prefix] at hpre ⊢
  exact List.prefix_of_prefix_length_le hpre (List.prefix_append a b) hlen

theorem mem_of_isPrefixOf_long_last (pat a b : Text) (c : Char)
    (hpre : pat.isPrefixOf (a ++ b) = true) (hlen : a.length < pat.length)
    (ha : a.getLast? = some c) : c ∈ pat := by
  rw [List.isPrefixOf_iff_prefix] at hpre
  have hap : a <+: pat :=
    List.prefix_of_prefix_length_le (List.prefix_append a b) hpre (by omega)
  exact hap.subset (List.mem_of_getLast?_eq_some ha)

theorem mem_of_isPrefixOf_long_head (pat a b : Text) (c : Char)
    (hpre : pat.isPrefixOf (a ++ b) = true) (hlen : a.length < pat.length)
    (hb : b.head? = some c) : c ∈ pat := by
  rw [List.isPrefixOf_iff_prefix] at hpre
  have hap : a <+: pat :=
    List.prefix_of_prefix_length_le (List.prefix_append a b) hpre (by omega)
  obtain ⟨t, ht⟩ := hap
  have htne : t ≠ [] := by
    intro h
    subst h
    rw [List.append_nil] at ht
    rw [ht] at hlen
    omega
  rw [← ht] at hpre
  rw [List.prefix_append_right_inj] at hpre
  obtain ⟨u, hu⟩ := hpre
  cases t with
  | nil => exact absurd rfl htne
  | cons d t' =>
    rw [← hu] at hb
    simp at hb
    rw [← ht, ← hb]
    exact List.mem_append_right a (List.mem_cons_self d t')

theorem getLast?_drop_of_lt (a : Text) (c : Char) (j : Nat)
    (ha : a.getLast? = some c) (hj : j < a.length) : (a.drop j).getLast? = some c := by
  obtain ⟨a', rfl⟩ : ∃ a', a = a' ++ [c] := by
    cases heq : a.reverse with
    | nil =>
      rw [List.reverse_eq_nil_iff] at heq
      subst heq
      simp at ha
    | cons y ys =>
      have : a = ys.reverse ++ [y] := by
        rw [← List.reverse_reverse a, heq]
        simp
      rw [this, List.getLast?_concat] at ha
      exact ⟨ys.reverse, by rw [this, Option.some.inj ha]⟩
  have hj' : j ≤ a'.length := by
    rw [List.length_append] at hj
    simp at hj
    omega
  rw [List.drop_append_of_le_length hj']
  exact List.getLast?_concat _

theorem no_left_of_getLast (pat a b : Text) (c : Char)
    (h1 : isSubstr pat a = false) (ha : a.getLast? = some c) (hc : c ∉ pat) :
    ∀ j, j < a.length → pat.isPrefixOf ((a ++ b).drop j) = false := by
  intro j hj
  by_contra hcon
  rw [Bool.not_eq_false] at hcon
  rw [List.drop_append_of_le_length (Nat.le_of_lt hj)] at hcon
  by_cases hlen : pat.length ≤ (a.drop j).length
  · have hpa := isPrefixOf_append_left _ _ _ hcon hlen
    have : isSubstr pat a = true := (isSubstr_iff pat a).mpr ⟨j, hpa⟩
    rw [h1] at this
    exact absurd this (by simp)
  · push_neg at hlen
    have hlast := getLast?_drop_of_lt a c j ha hj
    exact hc (mem_of_isPrefixOf_long_last _ _ _ _ hcon hlen hlast)

theorem no_left_of_head (pat a b : Text) (c : Char)
    (h1 : isSubstr pat a = false) (hb : b.head? = some c) (hc : c ∉ pat) :
    ∀ j, j < a.length → pat.isPrefixOf ((a ++ b).drop j) = false := by
  intro j hj
  by_contra hcon
  rw [Bool.not_eq_false] at hcon
  rw [List.drop_append_of_le_length (Nat.le_of_lt hj)] at hcon
  by_cases hlen : pat.length ≤ (a.drop j).length
  · have hpa := isPrefixOf_append_left _ _ _ hcon hlen
    have : isSubstr pat a = true := (isSubstr_iff pat a).mpr ⟨j, hpa⟩
    rw [h1] at this
    exact absurd this (by simp)
  · push_neg at hlen
    exact hc (mem_of_isPrefixOf_long_head _ _ _ _ hcon hlen hb)

theorem findSub_eq_none_of (pat s : Text) (h : isSubstr pat s = false) :
    findSub pat s = none := by
  unfold isSubstr at h
  cases hf : findSub pat s with
  | none => rfl
  | some i => rw [hf] at h; simp at h

theorem isSubstr_append_false_head (pat a b : Text) (c : Char)
    (h1 : isSubstr pat a = false) (h2 : isSubstr pat b = false)
    (hb : b.head? = some c) (hc : c ∉ pat) : isSubstr pat (a ++ b) = false := by
  unfold isSubstr
  rw [findSub_append_right pat a b (no_left_of_head pat a b c h1 hb hc)]
  rw [findSub_eq_none_of pat b h2]
  rfl

theorem isSubstr_append_false_last (pat a b : Text) (c : Char)
    (h1 : isSubstr pat a = false) (h2 : isSubstr pat b = false)
    (ha : a.getLast? = some c) (hc : c ∉ pat) : isSubstr pat (a ++ b) = false := by
  unfold isSubstr
  rw [findSub_append_right pat a b (no_left_of_getLast pat a b c h1 ha hc)]
  rw [findSub_eq_none_of pat b h2]
  rfl

theorem replaceFuel_of_none (pat repl s : Text) (f : Nat) (h : findSub pat s = none) :
    replaceFuel pat repl f s = s := by
  cases f with
  | zero => rfl
  | succ f' => simp [replaceFuel, h]

theorem pyReplace_unfold (pat repl s : Text) (i : Nat) (hne : pat ≠ [])
    (hfind : findSub pat s = some i) :
    pyReplace pat repl s =
      s.take i ++ repl ++ replaceFuel pat repl s.length (s.drop (i + pat.length)) := by
  unfold pyReplace
  have : pat.isEmpty = false := by
    cases pat with
    | nil => exact absurd rfl hne
    | cons _ _ => rfl
  rw [this]
  simp only [Bool.false_eq_true, if_false]
  show replaceFuel pat repl (s.length + 1) s = _
  simp [replaceFuel, hfind]

theorem findSub_self_append (pat t2 : Text) (hne : pat ≠ []) :
    findSub pat (pat ++ t2) = some 0 := by
  cases pat with
  | nil => exact absurd rfl hne
  | cons p ps =>
    have hpre : (p :: ps).isPrefixOf ((p :: ps) ++ t2) = true := by
      rw [List.isPrefixOf_iff_prefix]
      exact List.prefix_append _ _
    simp [findSub, hpre]

theorem pyReplace_exact (pat repl a t2 : Text) (hne : pat ≠ [])
    (hno : ∀ j, j < a.length → pat.isPrefixOf ((a ++ (pat ++ t2)).drop j) = false)
    (ht2 : isSubstr pat t2 = false) :
    pyReplace pat repl (a ++ (pat ++ t2)) = a ++ repl ++ t2 := by
  have hfs : findSub pat (a ++ (pat ++ t2)) = some a.length := by
    rw [findSub_append_right pat a _ hno, findSub_self_append pat t2 hne]
    simp
  rw [pyReplace_unfold _ _ _ _ hne hfs]
  rw [List.take_left' rfl]
  rw [List.drop_append]
  rw [List.drop_left]
  rw [replaceFuel_of_none _ _ _ _ (findSub_eq_none_of pat t2 ht2)]

theorem joinSep_append (sep : Text) (xs ys : List Text) (hxs : xs ≠ []) (hys : ys ≠ []) :
    joinSep sep (xs ++ ys) = joinSep sep xs ++ sep ++ joinSep sep ys := by
  induction xs with
  | nil => exact absurd rfl hxs
  | cons x xs' ih =>
    cases xs' with
    | nil =>
      cases ys with
      | nil => exact absurd rfl hys
      | cons y ys' => rfl
    | cons x2 xs'' =>
      have hrec := ih (by simp)
      simp only [List.cons_append] at hrec ⊢
      show x ++ sep ++ joinSep sep (x2 :: (xs'' ++ ys)) = _
      rw [hrec]
      show _ = x ++ sep ++ joinSep sep (x2 :: xs'') ++ sep ++ joinSep sep ys
      simp [List.append_assoc]

theorem generate_markdown_eq (date topic_name : Text) (items : List Item) :
    generate_markdown date topic_name items =
      record_body date topic_name items ++ recordTail := by
  unfold generate_markdown record_body recordTail
  dsimp only
  rw [joinSep_append (txt "\n") _ _ (by simp) (by simp)]
  simp [List.append_assoc]

theorem recordTail_decomp :
    recordTail =
      notesLead ++ (notesPlaceholder ++
        (importanceLead ++ (starLine ++ txt "\n"))) := by
  decide

/-- Core computation behind the amended C2: replacing the placeholder by N and
then the star-rating line by I, in a record made of a derived body (free of
both marker texts) followed by the canonical tail, splices N and I at their
canonical spots and touches nothing else — provided N does not contain the
star-rating line. -/
theorem spliced_record (body N I : Text)
    (hb1 : isSubstr notesPlaceholder body = false)
    (hb2 : isSubstr starLine body = false)
    (hNstar : isSubstr starLine N = false) :
    pyReplace starLine I (pyReplace notesPlaceholder N (body ++ recordTail)) =
      body ++ notesLead ++ N ++ importanceLead ++ I ++ txt "\n" := by
  have hlast1 : (body ++ notesLead).getLast? = some '\n' := by
    rw [List.getLast?_append]
    rw [show notesLead.getLast? = some '\n' from by decide]
    rfl
  have hfirst : pyReplace notesPlaceholder N (body ++ recordTail) =
      (body ++ notesLead) ++ N ++ (importanceLead ++ (starLine ++ txt "\n")) := by
    rw [recordTail_decomp]
    rw [show body ++ (notesLead ++ (notesPlaceholder ++ (importanceLead ++ (starLine ++ txt "\n")))) =
      (body ++ notesLead) ++ (notesPlaceholder ++ (importanceLead ++ (starLine ++ txt "\n"))) from by
        simp [List.append_assoc]]
    apply pyReplace_exact
    · decide
    · apply no_left_of_getLast _ _ _ '\n'
      · exact isSubstr_append_false_head notesPlaceholder body notesLead '\n' hb1
          (by decide) (by decide) (by decide)
      · exact hlast1
      · decide
    · decide
  rw [hfirst]
  have hsa : isSubstr starLine ((body ++ notesLead) ++ N) = false := by
    apply isSubstr_append_false_last starLine (body ++ notesLead) N '\n'
    · exact isSubstr_append_false_head starLine body notesLead '\n' hb2
        (by decide) (by decide) (by decide)
    · exact hNstar
    · exact hlast1
    · decide
  have hsa2 : isSubstr starLine (((body ++ notesLead) ++ N) ++ importanceLead) = false := by
    apply isSubstr_append_false_head starLine _ importanceLead '\n' hsa
    · decide
    · decide
    · decide
  have hlast2 : (((body ++ notesLead) ++ N) ++ importanceLead).getLast? = some '\n' := by
    rw [List.getLast?_append]
    rw [show importanceLead.getLast? = some '\n' from by decide]
    rfl
  rw [show (body ++ notesLead) ++ N ++ (importanceLead ++ (starLine ++ txt "\n")) =
    (((body ++ notesLead) ++ N) ++ importanceLead) ++ (starLine ++ txt "\n") from by
      simp [List.append_assoc]]
  rw [pyReplace_exact starLine I _ _ (by decide)
    (no_left_of_getLast _ _ _ '\n' hsa2 hlast2 (by decide))
    (by decide)]

/-- C2 amended: for every existing archive record, every new item list and
every pair of region texts N and I that the append path extracts from the
record — with N non-empty and not containing the star-rating template line, I
non-empty, and the regenerated derived content free of the placeholder and
star-line marker texts — the append-mode save writes exactly the regenerated
derived content followed by the notes lead, N verbatim, the importance lead, I
verbatim and a final newline; in particular the output contains N and I
verbatim while the title, stats block and content list are those of the new
item list. -/
theorem c2_amended (date topic_id existing : Text) (new_items : List Item) (N I : Text)
    (hN : (extract_regions existing).1 = N)
    (hI : (extract_regions existing).2 = I)
    (hNne : N ≠ [])
    (hIne : I ≠ [])
    (hNstar : isSubstr starLine N = false)
    (hbody1 : isSubstr notesPlaceholder
      (record_body date (recover_topic_name topic_id existing) new_items) = false)
    (hbody2 : isSubstr starLine
      (record_body date (recover_topic_name topic_id existing) new_items) = false) :
    append_to_existing date topic_id existing new_items =
      record_body date (recover_topic_name topic_id existing) new_items ++
        notesLead ++ N ++ importanceLead ++ I ++ txt "\n" ∧
    isSubstr N (append_to_existing date topic_id existing new_items) = true ∧
    isSubstr I (append_to_existing date topic_id existing new_items) = true := by
  have hmain : append_to_existing date topic_id existing new_items =
      record_body date (recover_topic_name topic_id existing) new_items ++
        notesLead ++ N ++ importanceLead ++ I ++ txt "\n" := by
    unfold append_to_existing
    dsimp only
    rw [hN, hI, if_pos hNne, if_pos hIne, generate_markdown_eq]
    exact spliced_record _ N I hbody1 hbody2 hNstar
  refine ⟨hmain, ?_, ?_⟩
  · rw [hmain]
    apply (isSubstr_iff _ _).mpr
    refine ⟨(record_body date (recover_topic_name topic_id existing) new_items ++
      notesLead).length, ?_⟩
    rw [show record_body date (recover_topic_name topic_id existing) new_items ++
        notesLead ++ N ++ importanceLead ++ I ++ txt "\n" =
      (record_body date (recover_topic_name topic_id existing) new_items ++ notesLead) ++
        (N ++ (importanceLead ++ (I ++ txt "\n"))) from by simp [List.append_assoc]]
    rw [List.drop_left]
    rw [List.isPrefixOf_iff_prefix]
    exact List.prefix_append _ _
  · rw [hmain]
    apply (isSubstr_iff _ _).mpr
    refine ⟨(record_body date (recover_topic_name topic_id existing) new_items ++
      notesLead ++ N ++ importanceLead).length, ?_⟩
    rw [show record_body date (recover_topic_name topic_id existing) new_items ++
        notesLead ++ N ++ importanceLead ++ I ++ txt "\n" =
      (record_body date (recover_topic_name topic_id existing) new_items ++
        notesLead ++ N ++ importanceLead) ++ (I ++ txt "\n") from by simp [List.append_assoc]]
    rw [List.drop_left]
    rw [List.isPrefixOf_iff_prefix]
    exact List.prefix_append _ _

/-- C2 amended witness: the hypotheses hold at the ordinary edited record
(notes 分析：关注后续进展, importance 重要度: ★★★★★) with a different new item
list, and the theorem applies there. -/
theorem c2_amended_witness :
    ((extract_regions c2_goodRecord).1 = c2_goodN ∧
     (extract_regions c2_goodRecord).2 = starComment ++ txt "\n\n" ++ c2_I ∧
     c2_goodN ≠ [] ∧
     starComment ++ txt "\n\n" ++ c2_I ≠ [] ∧
     isSubstr starLine c2_goodN = false ∧
     isSubstr notesPlaceholder
       (record_body (txt "2026-01-20") (recover_topic_name (txt "ai-tech") c2_goodRecord)
         c2_newItems) = false ∧
     isSubstr starLine
       (record_body (txt "2026-01-20") (recover_topic_name (txt "ai-tech") c2_goodRecord)
         c2_newItems) = false) ∧
    (append_to_existing (txt "2026-01-20") (txt "ai-tech") c2_goodRecord c2_newItems =
      record_body (txt "2026-01-20") (recover_topic_name (txt "ai-tech") c2_goodRecord)
          c2_newItems ++
        notesLead ++ c2_goodN ++ importanceLead ++ (starComment ++ txt "\n\n" ++ c2_I) ++
        txt "\n" ∧
     isSubstr c2_goodN
       (append_to_existing (txt "2026-01-20") (txt "ai-tech") c2_goodRecord c2_newItems) =
       true ∧
     isSubstr (starComment ++ txt "\n\n" ++ c2_I)
       (append_to_existing (txt "2026-01-20") (txt "ai-tech") c2_goodRecord c2_newItems) =
       true) :=
  ⟨⟨by decide, by decide, by decide, by decide, by decide, by decide, by decide⟩,
   c2_amended (txt "2026-01-20") (txt "ai-tech") c2_goodRecord c2_newItems c2_goodN
     (starComment ++ txt "\n\n" ++ c2_I) (by decide) (by decide) (by decide) (by decide)
     (by decide) (by decide) (by decide)⟩

/-- C4: the matcher of router.py builds the regex `\b<keyword>\b`; Python `\w`
counts CJK ideographs as word characters, so a CJK keyword embedded in CJK text
with no delimiter has no trailing boundary and does not match, contradicting
the claim; the same matcher does implement the word-boundary behaviour for
whitespace-delimited scripts. -/
theorem c4_divergence :
    match_keywords (txt "人工智能发展") [txt "人工智能"] = false ∧
    match_keywords (txt "人工智能") [txt "人工智能"] = true ∧
    match_keywords (txt "关于 人工智能 的讨论") [txt "人工智能"] = true ∧
    match_keywords (txt "WAIT for it") [txt "AI"] = false ∧
    match_keywords (txt "AI is here") [txt "ai"] = true := by
  decide

theorem joinSep_length_le (sep : Text) (l : List Text) :
    (joinSep sep l).length ≤ sumLens l + sep.length * l.length := by
  induction l with
  | nil => simp [joinSep, sumLens]
  | cons x xs ih =>
    cases xs with
    | nil => simp [joinSep, sumLens]
    | cons y ys =>
      simp only [joinSep, sumLens, List.length_append, List.length_cons,
        Nat.mul_succ] at ih ⊢
      omega

theorem collectSummaries_sum_le (store : Store) (dates : List Text) (max_chars : Nat)
    (entries : List (Text × List (Text × Text))) :
    ∀ total : Nat, total ≤ max_chars →
      sumLens (collectSummaries store dates max_chars entries total) + total ≤
        max_chars + truncNotice.length := by
  induction entries with
  | nil => intro total h; simpa [collectSummaries, sumLens] using by omega
  | cons e rest ih =>
    intro total h
    obtain ⟨tid, files⟩ := e
    simp only [collectSummaries]
    cases hsum : summarize_topic_history store tid dates with
    | none => exact ih total h
    | some pair =>
      obtain ⟨nm, ct⟩ := pair
      simp only []
      split
      · simp only [sumLens]
        omega
      · rename_i hb
        simp only [sumLens]
        have hrec := ih (total + (txt "### " ++ nm ++ txt "\n\n" ++ ct ++ txt "\n").length)
          (by omega)
        omega

theorem collectSummaries_length_le (store : Store) (dates : List Text) (max_chars : Nat)
    (entries : List (Text × List (Text × Text))) :
    ∀ total : Nat,
      (collectSummaries store dates max_chars entries total).length ≤ entries.length + 1 := by
  induction entries with
  | nil => intro total; simp [collectSummaries]
  | cons e rest ih =>
    intro total
    obtain ⟨tid, files⟩ := e
    simp only [collectSummaries]
    cases hsum : summarize_topic_history store tid dates with
    | none =>
      have := ih total
      simp only [List.length_cons]
      omega
    | some pair =>
      obtain ⟨nm, ct⟩ := pair
      simp only []
      split
      · simp
      · simp only [List.length_cons]
        have := ih (total + (txt "### " ++ nm ++ txt "\n\n" ++ ct ++ txt "\n").length)
        omega

/-- C3 counterexample: with a zero token budget and a store holding one
qualifying topic record, the returned digest consists of the header and the
truncation notice, and its length exceeds `max_tokens * 1.5` plus the length of
the truncation-notice line — the header and the join separators are not counted
against the budget. -/
theorem c3_counterexample :
    ¬ ((get_recent_summaries c3_store 1 ⟨2026, 1, 20⟩ 0).length ≤
        0 * 3 / 2 + truncNotice.length) := by
  decide

/-- C3 amended: for every store state, window and budget, the digest length is
bounded by `max_tokens * 1.5` plus the truncation-notice line plus the digest
header plus one join separator per topic directory (the last two being the
quantities the original claim omitted). -/
theorem c3_amended (store : Store) (days : Nat) (current_date : Date) (max_tokens : Nat) :
    (get_recent_summaries store days current_date max_tokens).length ≤
      max_tokens * 3 / 2 + truncNotice.length +
        (digestHeader (get_date_range current_date days true)).length + store.length + 1 := by
  unfold get_recent_summaries
  dsimp only
  split
  · simp
  · split
    · simp
    · rename_i hne
      have hsum := collectSummaries_sum_le store (get_date_range current_date days true)
        (max_tokens * 3 / 2) store 0 (Nat.zero_le _)
      have hlen := collectSummaries_length_le store (get_date_range current_date days true)
        (max_tokens * 3 / 2) store 0
      have hjoin := joinSep_length_le (txt "\n")
        (collectSummaries store (get_date_range current_date days true)
          (max_tokens * 3 / 2) store 0)
      have hone : (txt "\n").length = 1 := rfl
      rw [hone, Nat.one_mul] at hjoin
      simp only [List.length_append] at *
      omega

theorem daysBeforeMonth_step (y m : Nat) (h2 : 2 ≤ m) (h12 : m ≤ 12) :
    daysBeforeMonth y m = daysBeforeMonth y (m - 1) + daysInMonth y (m - 1) := by
  interval_cases m <;> cases hL : isLeap y <;> simp [daysBeforeMonth, daysInMonth, hL]

theorem daysInMonth_pos (y m : Nat) (h1 : 1 ≤ m) (h12 : m ≤ 12) :
    1 ≤ daysInMonth y m := by
  interval_cases m <;> cases hL : isLeap y <;> simp [daysInMonth, hL]

theorem prevDay_mk (y m dy : Nat) :
    prevDay ⟨y, m, dy⟩ =
      if dy > 1 then ⟨y, m, dy - 1⟩
      else if m > 1 then ⟨y, m - 1, daysInMonth y (m - 1)⟩
      else ⟨y - 1, 12, 31⟩ := rfl

theorem toOrd_mk (y m dy : Nat) :
    toOrd ⟨y, m, dy⟩ =
      365 * (y - 1) + (y - 1) / 4 - (y - 1) / 100 + (y - 1) / 400 +
        daysBeforeMonth y m + dy := rfl

theorem validDate_mk_iff (y m dy : Nat) :
    ValidDate ⟨y, m, dy⟩ ↔
      1 ≤ y ∧ 1 ≤ m ∧ m ≤ 12 ∧ 1 ≤ dy ∧ dy ≤ daysInMonth y m := Iff.rfl

theorem isLeap_iff (y : Nat) :
    isLeap y = true ↔ (y % 4 = 0 ∧ y % 100 ≠ 0) ∨ y % 400 = 0 := by
  unfold isLeap
  simp [Bool.or_eq_true, Bool.and_eq_true, beq_iff_eq, bne_iff_ne]

theorem toOrd_prevDay (d : Date) (hv : ValidDate d) (h1 : 1 < toOrd d) :
    ValidDate (prevDay d) ∧ toOrd (prevDay d) + 1 = toOrd d := by
  obtain ⟨y, m, dy⟩ := d
  rw [validDate_mk_iff] at hv
  obtain ⟨hy, hm1, hm12, hd1, hdm⟩ := hv
  rw [toOrd_mk] at h1
  rw [prevDay_mk]
  split_ifs with hday hmon
  · rw [validDate_mk_iff, toOrd_mk, toOrd_mk]
    exact ⟨⟨hy, hm1, hm12, by omega, by omega⟩, by omega⟩
  · have hstep := daysBeforeMonth_step y m (by omega) hm12
    have hpos := daysInMonth_pos y (m - 1) (by omega) (by omega)
    rw [validDate_mk_iff, toOrd_mk, toOrd_mk]
    exact ⟨⟨hy, by omega, by omega, hpos, le_refl _⟩, by omega⟩
  · have hm : m = 1 := by omega
    have hdy : dy = 1 := by omega
    subst hm
    subst hdy
    have h01 : daysBeforeMonth y 1 = 0 := rfl
    have hy2 : 2 ≤ y := by
      rw [h01] at h1
      omega
    have h31 : daysInMonth (y - 1) 12 = 31 := rfl
    rw [validDate_mk_iff, toOrd_mk, toOrd_mk, h01, h31]
    have h12' : daysBeforeMonth (y - 1) 12 =
        334 + (if isLeap (y - 1) = true then 1 else 0) := rfl
    rw [h12']
    refine ⟨⟨by omega, by omega, by omega, by omega, by omega⟩, ?_⟩
    by_cases hL : isLeap (y - 1) = true
    · rw [if_pos hL]
      rw [isLeap_iff] at hL
      omega
    · rw [if_neg hL]
      rw [isLeap_iff] at hL
      push_neg at hL
      omega

theorem toOrd_subDays (d : Date) (n : Nat) (hv : ValidDate d) (hn : n < toOrd d) :
    ValidDate (subDays d n) ∧ toOrd (subDays d n) = toOrd d - n := by
  induction n with
  | zero => simpa [subDays] using hv
  | succ k ih =>
    have hk := ih (by omega)
    have h1 : 1 < toOrd (subDays d k) := by omega
    have hstep := toOrd_prevDay (subDays d k) hk.1 h1
    exact ⟨hstep.1, by simp only [subDays]; omega⟩

/-- C7: for `days ≥ 1` and a current date with at least `days` representable
predecessors, the window computed by `_get_date_range` with
`exclude_current = True` is exactly the formatted images of the `days` valid
calendar dates strictly before the current date, in descending order: the
underlying day numbers are `toOrd current - 1, ..., toOrd current - days`. -/
theorem c7_date_range (end_ : Date) (days : Nat) (_hdays : 1 ≤ days)
    (hv : ValidDate end_) (hroom : days < toOrd end_) :
    ∃ ds : List Date,
      get_date_range end_ days true = ds.map formatDate ∧
      ds.length = days ∧
      (∀ d ∈ ds, ValidDate d ∧ toOrd d < toOrd end_) ∧
      ds.map toOrd = (List.range days).map (fun i => toOrd end_ - (i + 1)) := by
  refine ⟨(List.range days).map (fun i => subDays end_ (i + 1)), ?_, ?_, ?_, ?_⟩
  · simp [get_date_range, List.map_map]
  · simp
  · intro d hd
    simp only [List.mem_map, List.mem_range] at hd
    obtain ⟨i, hi, rfl⟩ := hd
    have h := toOrd_subDays end_ (i + 1) hv (by omega)
    exact ⟨h.1, by omega⟩
  · rw [List.map_map]
    apply List.map_congr_left
    intro i hi
    simp only [List.mem_range] at hi
    exact (toOrd_subDays end_ (i + 1) hv (by omega)).2

/-- C5: the legacy timeline dedup keeps exactly the candidates whose url is
`None` (never deduplicated) or whose url is not among the URLs recorded in the
file; in particular, against a file recording u1 and u2, a batch with urls
(u1, u3, None, None) keeps exactly the items with (u3, None, None). -/
theorem c5_dedup :
    (∀ (timeline_file : Option Text) (trends : List Trend) (t : Trend),
      t ∈ filter_new_trends (load_existing_urls timeline_file) trends ↔
        t ∈ trends ∧
          (t.url = none ∨
            ∀ u, t.url = some u → (load_existing_urls timeline_file).contains u = false)) ∧
    filter_new_trends (load_existing_urls (some c5_file)) [c5_t1, c5_t3, c5_n1, c5_n2] =
      [c5_t3, c5_n1, c5_n2] := by
  constructor
  · intro timeline_file trends t
    unfold filter_new_trends
    rw [List.mem_filter]
    cases hu : t.url with
    | none => simp [hu]
    | some u => simp [hu, Bool.not_eq_true']
  · decide

/-- C9: when every candidate has a URL and every one of those URLs is already
recorded in the existing timeline file, `generate_timeline` takes the
no-new-trends early return and performs no write: the file is left unchanged. -/
theorem c9_no_write (topic_name : Text) (content : Text) (trends : List Trend)
    (h : trends.all (fun t =>
        match t.url with
        | some u => (extractUrls content).contains u
        | none => false) = true) :
    generate_timeline topic_name (some content) trends = none := by
  have hf : filter_new_trends (load_existing_urls (some content)) trends = [] := by
    unfold filter_new_trends load_existing_urls
    rw [List.filter_eq_nil_iff]
    intro t ht
    have hall := (List.all_eq_true.mp h) t ht
    cases hu : t.url with
    | none => rw [hu] at hall; simp at hall
    | some u =>
      rw [hu] at hall
      simp only at hall
      simp only [hu, Bool.not_eq_true']
      simpa using hall
  unfold generate_timeline
  dsimp only
  rw [hf]
  simp

/-- C9 witness: the hypothesis holds for one candidate whose URL u1 is recorded
in the timeline file, and the theorem applies there. -/
theorem c9_witness :
    ([c5_t1].all (fun t =>
        match t.url with
        | some u => (extractUrls c5_file).contains u
        | none => false) = true) ∧
    generate_timeline (txt "科技") (some c5_file) [c5_t1] = none :=
  ⟨by decide, c9_no_write (txt "科技") c5_file [c5_t1] (by decide)⟩

/-- C7 witness: the hypotheses of `c7_date_range` hold at the concrete input
(2026-01-20, 3 days) and the theorem applies there. -/
theorem c7_witness :
    (1 ≤ 3 ∧ ValidDate ⟨2026, 1, 20⟩ ∧ 3 < toOrd ⟨2026, 1, 20⟩) ∧
    (∃ ds : List Date,
      get_date_range ⟨2026, 1, 20⟩ 3 true = ds.map formatDate ∧
      ds.length = 3 ∧
      (∀ d ∈ ds, ValidDate d ∧ toOrd d < toOrd ⟨2026, 1, 20⟩) ∧
      ds.map toOrd = (List.range 3).map (fun i => toOrd ⟨2026, 1, 20⟩ - (i + 1))) :=
  ⟨⟨by norm_num, by decide, by decide⟩,
    c7_date_range ⟨2026, 1, 20⟩ 3 (by norm_num) (by decide) (by decide)⟩

theorem validate_topics_eq (ts : List RawTopic) :
    validate_topics ts = ts.filterMap normalizeEntry := by
  induction ts with
  | nil => rfl
  | cons r rest ih =>
    cases r with
    | notDict => simp [validate_topics, normalizeEntry, List.filterMap_cons, ih]
    | entry i n k ds pr =>
      by_cases hc : i = [] ∨ n = [] ∨ k = []
      · simp [validate_topics, normalizeEntry, hc, List.filterMap_cons, ih]
      · simp [validate_topics, normalizeEntry, hc, List.filterMap_cons, ih]

theorem load_topics_parsed (ts : List RawTopic) :
    load_topics (.parsed ts) = ts.filterMap normalizeEntry := by
  cases ts with
  | nil => rfl
  | cons r rest => simp [load_topics, validate_topics_eq]

/-- C8: loading the topic configuration never raises (the embedding is a total
function whose error paths return the empty list): a missing file and an
unreadable file yield no topics, a parsed `topics` list is filtered entry by
entry exactly as `normalizeEntry` describes (entries lacking id, name or a
keyword are dropped, the rest are kept with priority defaulting to the
low-priority sentinel 999), and every returned definition has a non-empty id,
name and keyword list. -/
theorem c8_load_topics :
    load_topics .missing = [] ∧
    load_topics .unreadable = [] ∧
    (∀ ts : List RawTopic, load_topics (.parsed ts) = ts.filterMap normalizeEntry) ∧
    (∀ (cfg : ConfigFile) (t : TopicDef), t ∈ load_topics cfg →
      t.id ≠ [] ∧ t.name ≠ [] ∧ t.keywords ≠ []) := by
  refine ⟨rfl, rfl, load_topics_parsed, ?_⟩
  intro cfg t ht
  cases cfg with
  | missing => simp [load_topics] at ht
  | unreadable => simp [load_topics] at ht
  | parsed ts =>
    rw [load_topics_parsed, List.mem_filterMap] at ht
    obtain ⟨r, _hr, hnorm⟩ := ht
    cases r with
    | notDict => simp [normalizeEntry] at hnorm
    | entry i n k ds pr =>
      by_cases hc : i = [] ∨ n = [] ∨ k = []
      · simp [normalizeEntry, hc] at hnorm
      · rw [normalizeEntry, if_neg hc] at hnorm
        push_neg at hc
        have he := Option.some.inj hnorm
        subst he
        exact ⟨hc.1, hc.2.1, hc.2.2⟩

/-- C8 witness: a mixed configuration with one valid entry (missing priority)
and one non-dict entry; the valid entry is kept with priority 999 and the
theorem applies to it. -/
theorem c8_witness :
    ((⟨txt "ai-tech", txt "AI与科技", [txt "AI"], [], 999⟩ : TopicDef) ∈
      load_topics (.parsed
        [.entry (txt "ai-tech") (txt "AI与科技") [txt "AI"] none none,
         .notDict,
         .entry [] (txt "无id") [txt "x"] none none])) ∧
    ((txt "ai-tech" : Text) ≠ [] ∧ (txt "AI与科技" : Text) ≠ [] ∧
      ([txt "AI"] : List Text) ≠ []) :=
  ⟨by decide,
    c8_load_topics.2.2.2
      (.parsed
        [.entry (txt "ai-tech") (txt "AI与科技") [txt "AI"] none none,
         .notDict,
         .entry [] (txt "无id") [txt "x"] none none])
      ⟨txt "ai-tech", txt "AI与科技", [txt "AI"], [], 999⟩ (by decide)⟩

theorem lookupT_addToBucket_same {α : Type} (r : List (Text × List α)) (k : Text) (x : α) :
    lookupT k (addToBucket r k x) = some ((lookupT k r).getD [] ++ [x]) := by
  induction r with
  | nil => simp [addToBucket, lookupT]
  | cons p rest ih =>
    obtain ⟨k', l⟩ := p
    cases h : (k' == k) with
    | true => simp [addToBucket, lookupT, h]
    | false => simp [addToBucket, lookupT, h, ih]

theorem lookupT_addToBucket_other {α : Type} (r : List (Text × List α)) (key k : Text)
    (x : α) (hne : (key == k) = false) :
    lookupT k (addToBucket r key x) = lookupT k r := by
  induction r with
  | nil => simp [addToBucket, lookupT, hne]
  | cons p rest ih =>
    obtain ⟨k', l⟩ := p
    cases h : (k' == key) with
    | true =>
      have hk : k' = key := by simpa using h
      subst hk
      simp [addToBucket, lookupT, h, hne, ih]
    | false => simp [addToBucket, lookupT, h, ih]

theorem mem_bucket_addToBucket (r : Buckets) (key k : Text) (it x : Item) :
    x ∈ bucketOf (addToBucket r key it) k ↔
      (x ∈ bucketOf r k ∨ (key = k ∧ x = it)) := by
  unfold bucketOf
  cases h : (key == k) with
  | true =>
    have hk : key = k := by simpa using h
    subst hk
    rw [lookupT_addToBucket_same]
    simp
  | false =>
    rw [lookupT_addToBucket_other _ _ _ _ h]
    have hk : ¬ key = k := by simpa using h
    simp [hk]

theorem mem_bucket_addAll (res : Buckets) (matched : List Text) (it : Item)
    (k : Text) (x : Item) :
    x ∈ bucketOf (addAll res matched it) k ↔
      (x ∈ bucketOf res k ∨ (k ∈ matched ∧ x = it)) := by
  induction matched generalizing res with
  | nil => simp [addAll]
  | cons m ms ih =>
    rw [show addAll res (m :: ms) it = addAll (addToBucket res m it) ms it from rfl]
    rw [ih, mem_bucket_addToBucket]
    constructor
    · rintro ((hx | ⟨rfl, rfl⟩) | ⟨hk, rfl⟩)
      · exact Or.inl hx
      · exact Or.inr ⟨List.mem_cons_self _ _, rfl⟩
      · exact Or.inr ⟨List.mem_cons_of_mem _ hk, rfl⟩
    · rintro (hx | ⟨hk, rfl⟩)
      · exact Or.inl (Or.inl hx)
      · rcases List.mem_cons.mp hk with rfl | hk'
        · exact Or.inl (Or.inr ⟨rfl, rfl⟩)
        · exact Or.inr ⟨hk', rfl⟩

theorem mem_bucket_classifyTitles {δ : Type} (wm : Text → Text → Bool)
    (topics : List TopicDef) (mk : Text → Text → δ → Item) (source_id : Text)
    (titles : List (Text × δ)) (res : Buckets) (k : Text) (x : Item) :
    x ∈ bucketOf (classifyTitles wm topics mk source_id titles res) k ↔
      (x ∈ bucketOf res k ∨
        ∃ p, p ∈ titles ∧ k ∈ match_topics wm p.1 topics ∧ x = mk source_id p.1 p.2) := by
  induction titles generalizing res with
  | nil =>
    rw [show classifyTitles wm topics mk source_id [] res = res from rfl]
    constructor
    · exact Or.inl
    · rintro (hx | ⟨p, hp, _⟩)
      · exact hx
      · exact absurd hp (List.not_mem_nil p)
  | cons p ps ih =>
    rw [show classifyTitles wm topics mk source_id (p :: ps) res =
      classifyTitles wm topics mk source_id ps
        (addAll res (match_topics wm p.1 topics) (mk source_id p.1 p.2)) from rfl]
    rw [ih, mem_bucket_addAll]
    constructor
    · rintro ((hx | ⟨hk, rfl⟩) | ⟨q, hq, hkq, rfl⟩)
      · exact Or.inl hx
      · exact Or.inr ⟨p, List.mem_cons_self _ _, hk, rfl⟩
      · exact Or.inr ⟨q, List.mem_cons_of_mem _ hq, hkq, rfl⟩
    · rintro (hx | ⟨q, hq, hkq, rfl⟩)
      · exact Or.inl (Or.inl hx)
      · rcases List.mem_cons.mp hq with rfl | hq'
        · exact Or.inl (Or.inr ⟨hkq, rfl⟩)
        · exact Or.inr ⟨q, hq', hkq, rfl⟩

theorem mem_bucket_classifySources {δ : Type} (wm : Text → Text → Bool)
    (topics : List TopicDef) (mk : Text → Text → δ → Item)
    (inputs : List (Text × List (Text × δ))) (res : Buckets) (k : Text) (x : Item) :
    x ∈ bucketOf (classifySources wm topics mk inputs res) k ↔
      (x ∈ bucketOf res k ∨
        ∃ s, s ∈ inputs ∧ ∃ p, p ∈ s.2 ∧ k ∈ match_topics wm p.1 topics ∧
          x = mk s.1 p.1 p.2) := by
  induction inputs generalizing res with
  | nil =>
    rw [show classifySources wm topics mk [] res = res from rfl]
    constructor
    · exact Or.inl
    · rintro (hx | ⟨s, hs, _⟩)
      · exact hx
      · exact absurd hs (List.not_mem_nil s)
  | cons s ss ih =>
    rw [show classifySources wm topics mk (s :: ss) res =
      classifySources wm topics mk ss (classifyTitles wm topics mk s.1 s.2 res) from rfl]
    rw [ih, mem_bucket_classifyTitles]
    constructor
    · rintro ((hx | ⟨p, hp, hkp, rfl⟩) | ⟨q, hq, hrest⟩)
      · exact Or.inl hx
      · exact Or.inr ⟨s, List.mem_cons_self _ _, p, hp, hkp, rfl⟩
      · exact Or.inr ⟨q, List.mem_cons_of_mem _ hq, hrest⟩
    · rintro (hx | ⟨q, hq, p, hp, hkp, rfl⟩)
      · exact Or.inl (Or.inl hx)
      · rcases List.mem_cons.mp hq with rfl | hq'
        · exact Or.inl (Or.inr ⟨p, hp, hkp, rfl⟩)
        · exact Or.inr ⟨q, hq', p, hp, hkp, rfl⟩

theorem match_topics_eq (wm : Text → Text → Bool) (title : Text) (topics : List TopicDef) :
    match_topics wm title topics =
      (topics.filter (fun t => t.keywords.any (fun keyword => wm title keyword))).map
        TopicDef.id := by
  induction topics with
  | nil => rfl
  | cons t rest ih =>
    by_cases hc : t.keywords.any (fun keyword => wm title keyword) = true
    · simp [match_topics, hc, ih]
    · simp [match_topics, hc, ih]

/-- C6: the id list computed for a title is exactly the ids of the topics whose
keyword set contains a matching keyword (every topic is evaluated; within one
topic the scan short-circuits at the first hit, which `List.any` models); and
`classify` places each hotlist and each RSS item into the bucket of every such
topic, so one item can land in several buckets. -/
theorem c6_classify :
    (∀ (wm : Text → Text → Bool) (title : Text) (topics : List TopicDef),
      match_topics wm title topics =
        (topics.filter (fun t => t.keywords.any (fun keyword => wm title keyword))).map
          TopicDef.id) ∧
    (∀ (wm : Text → Text → Bool) (topics : List TopicDef)
      (news : List (Text × List (Text × HotData))) (rss : List (Text × List (Text × RssData)))
      (source_id : Text) (titles : List (Text × HotData)) (title : Text) (d : HotData)
      (topic : TopicDef),
      topics ≠ [] → (source_id, titles) ∈ news → (title, d) ∈ titles →
      topic ∈ topics → topic.keywords.any (fun keyword => wm title keyword) = true →
      mkHotItem source_id title d ∈ bucketOf (classify wm topics news rss) topic.id) ∧
    (∀ (wm : Text → Text → Bool) (topics : List TopicDef)
      (news : List (Text × List (Text × HotData))) (rss : List (Text × List (Text × RssData)))
      (feed_id : Text) (titles : List (Text × RssData)) (title : Text) (d : RssData)
      (topic : TopicDef),
      topics ≠ [] → (feed_id, titles) ∈ rss → (title, d) ∈ titles →
      topic ∈ topics → topic.keywords.any (fun keyword => wm title keyword) = true →
      mkRssItem feed_id title d ∈ bucketOf (classify wm topics news rss) topic.id) := by
  refine ⟨match_topics_eq, ?_, ?_⟩
  · intro wm topics news rss source_id titles title d topic htne hsrc htitle htopic hmatch
    have hid : topic.id ∈ match_topics wm title topics := by
      rw [match_topics_eq, List.mem_map]
      exact ⟨topic, List.mem_filter.mpr ⟨htopic, hmatch⟩, rfl⟩
    unfold classify
    rw [if_neg htne, mem_bucket_classifySources]
    left
    rw [mem_bucket_classifySources]
    right
    exact ⟨(source_id, titles), hsrc, (title, d), htitle, hid, rfl⟩
  · intro wm topics news rss feed_id titles title d topic htne hsrc htitle htopic hmatch
    have hid : topic.id ∈ match_topics wm title topics := by
      rw [match_topics_eq, List.mem_map]
      exact ⟨topic, List.mem_filter.mpr ⟨htopic, hmatch⟩, rfl⟩
    unfold classify
    rw [if_neg htne, mem_bucket_classifySources]
    right
    exact ⟨(feed_id, titles), hsrc, (title, d), htitle, hid, rfl⟩

/-- C6 witness: a concrete matcher (substring containment), two topics both
matching the one hotlist title, and the item appears in both topic buckets; the
second bucket membership is obtained by applying the theorem. -/
theorem c6_classify_witness :
    mkHotItem (txt "src1") (txt "OpenAI发布新模型") {} ∈
      bucketOf
        (classify (fun t kw => isSubstr kw t)
          [⟨txt "ai-tech", txt "AI", [txt "AI"], [], 1⟩,
           ⟨txt "model", txt "模型", [txt "模型"], [], 2⟩]
          [(txt "src1", [(txt "OpenAI发布新模型", {})])] [])
        (txt "model") ∧
    mkHotItem (txt "src1") (txt "OpenAI发布新模型") {} ∈
      bucketOf
        (classify (fun t kw => isSubstr kw t)
          [⟨txt "ai-tech", txt "AI", [txt "AI"], [], 1⟩,
           ⟨txt "model", txt "模型", [txt "模型"], [], 2⟩]
          [(txt "src1", [(txt "OpenAI发布新模型", {})])] [])
        (txt "ai-tech") :=
  ⟨c6_classify.2.1 (fun t kw => isSubstr kw t)
      [⟨txt "ai-tech", txt "AI", [txt "AI"], [], 1⟩,
       ⟨txt "model", txt "模型", [txt "模型"], [], 2⟩]
      [(txt "src1", [(txt "OpenAI发布新模型", {})])] []
      (txt "src1") [(txt "OpenAI发布新模型", {})] (txt "OpenAI发布新模型") {}
      ⟨txt "model", txt "模型", [txt "模型"], [], 2⟩
      (by decide) (by decide) (by decide) (by decide) (by decide),
    c6_classify.2.1 (fun t kw => isSubstr kw t)
      [⟨txt "ai-tech", txt "AI", [txt "AI"], [], 1⟩,
       ⟨txt "model", txt "模型", [txt "模型"], [], 2⟩]
      [(txt "src1", [(txt "OpenAI发布新模型", {})])] []
      (txt "src1") [(txt "OpenAI发布新模型", {})] (txt "OpenAI发布新模型") {}
      ⟨txt "ai-tech", txt "AI", [txt "AI"], [], 1⟩
      (by decide) (by decide) (by decide) (by decide) (by decide)⟩

theorem hotThenRss_addToBucket (res : Buckets) (key : Text) (it : Item)
    (hit : it.source_type = txt "rss")
    (hres : ∀ k, HotThenRss (bucketOf res k)) :
    ∀ k, HotThenRss (bucketOf (addToBucket res key it) k) := by
  intro k
  obtain ⟨hs, rs, heq, hh, hr⟩ := hres k
  cases h : (key == k) with
  | true =>
    have hk : key = k := by simpa using h
    subst hk
    refine ⟨hs, rs ++ [it], ?_, hh, ?_⟩
    · unfold bucketOf at heq ⊢
      rw [lookupT_addToBucket_same]
      simp [heq, List.append_assoc]
    · intro x hx
      rcases List.mem_append.mp hx with hx | hx
      · exact hr x hx
      · rw [List.mem_singleton] at hx
        subst hx
        exact hit
  | false =>
    unfold bucketOf at hres ⊢
    rw [lookupT_addToBucket_other _ _ _ _ h]
    exact ⟨hs, rs, heq, hh, hr⟩

theorem hotThenRss_addAll (matched : List Text) (it : Item)
    (hit : it.source_type = txt "rss") :
    ∀ res : Buckets, (∀ k, HotThenRss (bucketOf res k)) →
      ∀ k, HotThenRss (bucketOf (addAll res matched it) k) := by
  induction matched with
  | nil => intro res hres; exact hres
  | cons m ms ih =>
    intro res hres
    rw [show addAll res (m :: ms) it = addAll (addToBucket res m it) ms it from rfl]
    exact ih (addToBucket res m it) (hotThenRss_addToBucket res m it hit hres)

theorem hotThenRss_classifyTitles {δ : Type} (wm : Text → Text → Bool)
    (topics : List TopicDef) (mk : Text → Text → δ → Item) (source_id : Text)
    (hmk : ∀ s t d, (mk s t d).source_type = txt "rss") (titles : List (Text × δ)) :
    ∀ res : Buckets, (∀ k, HotThenRss (bucketOf res k)) →
      ∀ k, HotThenRss (bucketOf (classifyTitles wm topics mk source_id titles res) k) := by
  induction titles with
  | nil => intro res hres; exact hres
  | cons p ps ih =>
    intro res hres
    rw [show classifyTitles wm topics mk source_id (p :: ps) res =
      classifyTitles wm topics mk source_id ps
        (addAll res (match_topics wm p.1 topics) (mk source_id p.1 p.2)) from rfl]
    exact ih _ (hotThenRss_addAll _ _ (hmk source_id p.1 p.2) res hres)

theorem hotThenRss_classifySources {δ : Type} (wm : Text → Text → Bool)
    (topics : List TopicDef) (mk : Text → Text → δ → Item)
    (hmk : ∀ s t d, (mk s t d).source_type = txt "rss")
    (inputs : List (Text × List (Text × δ))) :
    ∀ res : Buckets, (∀ k, HotThenRss (bucketOf res k)) →
      ∀ k, HotThenRss (bucketOf (classifySources wm topics mk inputs res) k) := by
  induction inputs with
  | nil => intro res hres; exact hres
  | cons s ss ih =>
    intro res hres
    rw [show classifySources wm topics mk (s :: ss) res =
      classifySources wm topics mk ss (classifyTitles wm topics mk s.1 s.2 res) from rfl]
    exact ih _ (hotThenRss_classifyTitles wm topics mk s.1 hmk s.2 res hres)

/-- C10: in every mapping returned by `classify`, each topic bucket is a block
of hotlist items followed by a block of RSS items — the hotlist pass runs in
full before the RSS pass and items are only ever appended at bucket ends. -/
theorem c10_hot_before_rss (wm : Text → Text → Bool) (topics : List TopicDef)
    (news : List (Text × List (Text × HotData)))
    (rss : List (Text × List (Text × RssData))) (topic_id : Text) :
    HotThenRss (bucketOf (classify wm topics news rss) topic_id) := by
  by_cases htop : topics = []
  · unfold classify
    rw [if_pos htop]
    exact ⟨[], [], rfl, by simp, by simp⟩
  · unfold classify
    rw [if_neg htop]
    apply hotThenRss_classifySources wm topics mkRssItem (fun s t d => rfl) rss
    intro k
    refine ⟨bucketOf (classifySources wm topics mkHotItem news []) k, [],
      (List.append_nil _).symm, ?_, by simp⟩
    intro x hx
    rw [mem_bucket_classifySources] at hx
    rcases hx with hx | ⟨s, _, p, _, _, rfl⟩
    · simp [bucketOf, lookupT] at hx
    · rfl

end TrendRadar
